import Mathlib

/-!
Verification of the StarCraft 2 Archipelago client's progression state engine
(`worlds/sc2/client.py`, `worlds/sc2/client_gui.py`).

The embedding below follows the Python source.  Machine integers are modelled
as `ℤ` (Python integers are unbounded); the accumulator slots, which only ever
hold non-negative values, are modelled as `ℕ`.  The two location-id offset
constants (`SC2WOL_LOC_ID_OFFSET`, `SC2HOTS_LOC_ID_OFFSET`) and the boundary
mission id (`SC2Mission.ALL_IN.id`) are imported by `client.py` from modules
that are not part of the embedded sources, so they are kept as explicit
parameters (named `wol`, `hots`, `allIn`) of every definition that uses them.
Python's `divmod` with a positive modulus is floor division with a
non-negative remainder, which coincides with Lean's `Int` division `/` and
`%` (Euclidean, with a positive divisor).
-/

/-- `VICTORY_MODULO` from `client.py` (line 78). -/
def VICTORY_MODULO : ℤ := 100

/-- `get_location_offset` from `client.py`: the WoL offset for mission ids up
to ALL_IN's id, otherwise the HotS offset rebased by ALL_IN's id. -/
def get_location_offset (wol hots allIn : ℤ) (mission_id : ℤ) : ℤ :=
  if mission_id ≤ allIn then wol else hots - allIn * VICTORY_MODULO

/-- `get_location_id` from `client.py`: the location-id encoder.  Note that
the source performs no range check on `objective_id`. -/
def get_location_id (wol hots allIn : ℤ) (mission_id objective_id : ℤ) : ℤ :=
  get_location_offset wol hots allIn mission_id + mission_id * VICTORY_MODULO + objective_id

/-- The location-id decoder, inlined in `build_location_to_mission_mapping`
(`client.py` lines 934-936): the offset is selected by comparing the id
against the HotS offset, then `divmod(loc - offset, VICTORY_MODULO)`
recovers the pair. -/
def decode_location (wol hots allIn : ℤ) (loc : ℤ) : ℤ × ℤ :=
  let offset := if loc < hots then wol else hots - allIn * VICTORY_MODULO
  ((loc - offset) / VICTORY_MODULO, (loc - offset) % VICTORY_MODULO)

/-- C1: the location codec is a bijection over valid pairs: decoding an
encoded `(missionId, objectiveIndex)` pair with `objectiveIndex ∈ [0,99]`
recovers exactly that pair, and every id the encoder could have produced is
mapped back to itself by encode ∘ decode; moreover for an early-expansion
mission (`5 ≤ allIn`) the id of `(5, 0)` is the WoL offset plus 500 and
decoding the WoL offset plus 507 yields `(5, 7)`.  The single hypothesis is
the separation of the two offset regimes satisfied by the repository's
constants (the largest early-expansion id is below the HotS offset). -/
theorem location_codec_bijective (wol hots allIn : ℤ)
    (hsep : wol + allIn * 100 + 99 < hots) :
    (∀ m o : ℤ, 0 ≤ o → o ≤ 99 →
      decode_location wol hots allIn (get_location_id wol hots allIn m o) = (m, o))
    ∧ (∀ id : ℤ, (∃ m o : ℤ, 0 ≤ o ∧ o ≤ 99 ∧ id = get_location_id wol hots allIn m o) →
      get_location_id wol hots allIn (decode_location wol hots allIn id).1
        (decode_location wol hots allIn id).2 = id)
    ∧ (5 ≤ allIn →
      get_location_id wol hots allIn 5 0 = wol + 500
      ∧ decode_location wol hots allIn (wol + 507) = (5, 7)) := by
  have hround : ∀ m o : ℤ, 0 ≤ o → o ≤ 99 →
      decode_location wol hots allIn (get_location_id wol hots allIn m o) = (m, o) := by
    intro m o ho0 ho99
    simp only [decode_location, get_location_id, get_location_offset, VICTORY_MODULO]
    split_ifs with hm hlt hlt <;> rw [Prod.mk.injEq] <;> omega
  refine ⟨hround, ?_, ?_⟩
  · rintro id ⟨m, o, ho0, ho99, rfl⟩
    rw [hround m o ho0 ho99]
  · intro h5
    constructor
    · simp only [get_location_id, get_location_offset, VICTORY_MODULO]
      split_ifs
      all_goals omega
    · simp only [decode_location, VICTORY_MODULO]
      split_ifs with hlt <;> rw [Prod.mk.injEq] <;> omega

/-- Witness for C1 at the concrete offsets `wol = 1000`, `hots = 20000`,
`allIn = 29`: round trips in both offset regimes and the `(5, ·)` scenario. -/
theorem location_codec_bijective_witness :
    ((1000 : ℤ) + 29 * 100 + 99 < 20000)
    ∧ decode_location 1000 20000 29 (get_location_id 1000 20000 29 5 7) = (5, 7)
    ∧ decode_location 1000 20000 29 (get_location_id 1000 20000 29 40 3) = (40, 3)
    ∧ get_location_id 1000 20000 29 5 0 = 1000 + 500
    ∧ decode_location 1000 20000 29 (1000 + 507) = (5, 7) := by
  have h := location_codec_bijective 1000 20000 29 (by norm_num)
  exact ⟨by norm_num, h.1 5 7 (by norm_num) (by norm_num),
    h.1 40 3 (by norm_num) (by norm_num),
    (h.2.2 (by norm_num)).1, (h.2.2 (by norm_num)).2⟩

/-- C8, counterexample: the claim states that the encoder fails with
`InvalidObjective` whenever the objective index is outside `[0, 99]`.  The
source performs no such check: at objective index 100 (offsets 1000/20000,
ALL_IN id 29) `get_location_id` does not fail but silently returns the same
id as the valid pair `(6, 0)` — a collision, not an error. -/
theorem get_location_id_no_range_check :
    get_location_id 1000 20000 29 5 100 = get_location_id 1000 20000 29 6 0 := by
  simp only [get_location_id, get_location_offset, VICTORY_MODULO]
  norm_num

/-- C8 amended: `get_location_id` performs no validation and never fails:
for every `objective_id`, in range or not, it returns
`offset(missionId) + missionId * 100 + objectiveIndex` with no side effect;
in particular an out-of-range index 100 silently collides with the next
mission's victory location whenever both missions fall in the same offset
regime. -/
theorem get_location_id_total (wol hots allIn m o : ℤ)
    (hsame : m + 1 ≤ allIn ∨ allIn < m) :
    get_location_id wol hots allIn m o
      = get_location_offset wol hots allIn m + m * 100 + o
    ∧ get_location_id wol hots allIn m 100 = get_location_id wol hots allIn (m + 1) 0 := by
  constructor
  · simp only [get_location_id, VICTORY_MODULO]
  · simp only [get_location_id, get_location_offset, VICTORY_MODULO]
    split_ifs <;> omega

/-- Witness for C8's amended theorem at mission id 5, objective 100. -/
theorem get_location_id_total_witness :
    ((5 : ℤ) + 1 ≤ 29 ∨ (29 : ℤ) < 5)
    ∧ get_location_id 1000 20000 29 5 100 = get_location_id 1000 20000 29 6 0 :=
  ⟨Or.inl (by norm_num), (get_location_id_total 1000 20000 29 5 100 (Or.inl (by norm_num))).2⟩

/-- `get_kerrigan_level` from `client.py` (lines 1334-1342).  The context
fields `kerrigan_levels_per_mission_completed`,
`kerrigan_levels_per_mission_completed_cap` and `kerrigan_total_level_cap`
are passed as the parameters `rate`, `cap1` and `cap2`; `item_value` is
`items[ZERG][Level.flag_word]` and `missions_beaten` the mission count the
caller supplies. -/
def get_kerrigan_level (rate cap1 cap2 item_value missions_beaten : ℤ) : ℤ :=
  let mission_value := missions_beaten * rate
  let mission_value := if cap1 ≠ -1 then min mission_value cap1 else mission_value
  let total_value := item_value + mission_value
  if cap2 ≠ -1 then min total_value cap2 else total_value

/-- The blended-level formula as the specification and claim C3 state it: the
first, optional cap applied to the *sum* of the item-derived and the
mission-derived values, a `-1` cap meaning "no cap". -/
def kerrigan_level_spec (rate cap1 cap2 item_value missions_beaten : ℤ) : ℤ :=
  let first := if cap1 ≠ -1 then min (item_value + missions_beaten * rate) cap1
               else item_value + missions_beaten * rate
  if cap2 ≠ -1 then min first cap2 else first

/-- `missions_beaten_count` from `client.py` (lines 1668-1669): the number of
checked locations whose id is divisible by `VICTORY_MODULO`. -/
def missions_beaten_count (checked_locations : Finset ℤ) : ℕ :=
  (checked_locations.filter (fun loc => loc % VICTORY_MODULO = 0)).card

/-- C3, counterexample: with `rate = 10`, per-mission cap `8`, no total cap,
item-derived value `5` and one mission beaten, the code yields
`5 + min(10, 8) = 13` while the claim's formula `min(5 + 10, 8)` yields `8`:
the code applies the first cap to the mission-derived value alone, not to
the sum. -/
theorem get_kerrigan_level_cap_counterexample :
    get_kerrigan_level 10 8 (-1) 5 1 = 13
    ∧ kerrigan_level_spec 10 8 (-1) 5 1 = 8
    ∧ get_kerrigan_level 10 8 (-1) 5 1 ≠ kerrigan_level_spec 10 8 (-1) 5 1 := by
  refine ⟨?_, ?_, ?_⟩ <;> simp [get_kerrigan_level, kerrigan_level_spec]

/-- C3 amended: the blended level equals
`min(itemStateValue + min(missionsBeaten * rate, per_mission_cap), total_cap)`
— the first, optional cap is applied to the mission-derived value alone,
before the item-derived value is added, each cap meaning "no cap" when `-1`;
consequently, whenever the item-derived value is non-negative the code's
result dominates the formula the claim stated. -/
theorem get_kerrigan_level_caps (rate cap1 cap2 item_value missions_beaten : ℤ)
    (hitem : 0 ≤ item_value) :
    get_kerrigan_level rate cap1 cap2 item_value missions_beaten
      = (if cap2 = -1 then id else fun t => min t cap2)
        (item_value + (if cap1 = -1 then missions_beaten * rate
                       else min (missions_beaten * rate) cap1))
    ∧ kerrigan_level_spec rate cap1 cap2 item_value missions_beaten
      ≤ get_kerrigan_level rate cap1 cap2 item_value missions_beaten := by
  simp only [get_kerrigan_level, kerrigan_level_spec]
  constructor
  · split_ifs <;> simp_all
  · split_ifs <;> simp_all <;> omega

/-- Witness for C3's amended theorem at the counterexample's input. -/
theorem get_kerrigan_level_caps_witness :
    (0 : ℤ) ≤ 5
    ∧ kerrigan_level_spec 10 8 (-1) 5 1 ≤ get_kerrigan_level 10 8 (-1) 5 1 :=
  ⟨by norm_num, (get_kerrigan_level_caps 10 8 (-1) 5 1 (by norm_num)).2⟩

/-- `NetworkItem` from `NetUtils` as used by `client.py`: an
`(item, location, player, flags)` record. -/
structure NetworkItem where
  item : ℤ
  location : ℤ
  player : ℤ
  flags : ℤ
deriving DecidableEq

/-- `compat_item_to_network_items` from `client.py`: a compat holder of a
given item code and quantity expands to `quantity` copies of
`NetworkItem(item_id, 0, 0, 0)`. -/
def compat_item_to_network_items (item_id : ℤ) (quantity : ℕ) : List NetworkItem :=
  List.replicate quantity ⟨item_id, 0, 0, 0⟩

/-- The event-list construction at the top of `calculate_items` (`client.py`
lines 1194-1201): start from a copy of `ctx.items_received`, then `extend`
it with the API2→API3 compat items when `slot_data_version < 3` and with the
API3→API4 compat items when `slot_data_version < 4`.  The two compat item
sets are built from item tables outside the embedded sources and are kept as
the parameters `api2_items` and `api3_items`. -/
def calculate_items_event_list (slot_data_version : ℤ)
    (items_received api2_items api3_items : List NetworkItem) : List NetworkItem :=
  let items := items_received
  let items := if slot_data_version < 3 then items ++ api2_items else items
  if slot_data_version < 4 then items ++ api3_items else items

/-- C4, counterexample: for a session with `slot_data_version = 2`, one real
received event (code 0) and one-element compat sets (codes 1 and 2), the
list `calculate_items` folds is `[0, 1, 2]` — the real stream first and the
shims' implied events appended *after* it — and differs from both
shim-first arrangements the claim requires. -/
theorem calculate_items_shims_after_counterexample :
    calculate_items_event_list 2 [⟨0, 0, 0, 0⟩] [⟨1, 0, 0, 0⟩] [⟨2, 0, 0, 0⟩]
      = [⟨0, 0, 0, 0⟩, ⟨1, 0, 0, 0⟩, ⟨2, 0, 0, 0⟩]
    ∧ calculate_items_event_list 2 [⟨0, 0, 0, 0⟩] [⟨1, 0, 0, 0⟩] [⟨2, 0, 0, 0⟩]
      ≠ [⟨1, 0, 0, 0⟩, ⟨2, 0, 0, 0⟩, ⟨0, 0, 0, 0⟩]
    ∧ calculate_items_event_list 2 [⟨0, 0, 0, 0⟩] [⟨1, 0, 0, 0⟩] [⟨2, 0, 0, 0⟩]
      ≠ [⟨2, 0, 0, 0⟩, ⟨1, 0, 0, 0⟩, ⟨0, 0, 0, 0⟩] := by
  refine ⟨?_, ?_, ?_⟩ <;> simp [calculate_items_event_list]

/-- C4 amended: when the session's schema version is below a shim's
threshold (`slot_data_version < 3` for the API2→API3 set, `< 4` for the
API3→API4 set), `calculate_items` synthesizes that shim's implied item
events before the fold begins, but appends them *after* the real
received-event stream in the single list it folds: the folded list is the
real stream, then the API2→API3 events (when applicable), then the
API3→API4 events (when applicable). -/
theorem calculate_items_shims_appended (v : ℤ)
    (items_received api2_items api3_items : List NetworkItem) :
    calculate_items_event_list v items_received api2_items api3_items
      = items_received ++ (if v < 3 then api2_items else [])
          ++ (if v < 4 then api3_items else []) := by
  simp only [calculate_items_event_list]
  split_ifs <;> simp

/-- Modelled from the spec: the item table (`item/item_tables.py`, not among
the embedded sources) assigns each Terran Orbital-Command-related item a
wire code; the concrete values are opaque, only their distinctness matters,
so representative codes are fixed here. -/
def ORBITAL_COMMAND_CODE : ℤ := 100

/-- Modelled from the spec: wire code of Command Center: Scanner Sweep. -/
def SCANNER_SWEEP_CODE : ℤ := 101

/-- Modelled from the spec: wire code of Command Center: MULE. -/
def MULE_CODE : ℤ := 102

/-- Modelled from the spec: wire code of Command Center: Extra Supplies. -/
def EXTRA_SUPPLIES_CODE : ℤ := 103

/-- Modelled from the spec: wire code of Planetary Fortress: Orbital Module. -/
def PLANETARY_ORBITAL_MODULE_CODE : ℤ := 104

/-- Modelled from the spec: per-item bit positions (`ItemData.number`) of the
four modern replacements inside their shared Terran flag slot; §4.3 makes
them `Flag`-kind bits at distinct positions of one slot. -/
def SCANNER_SWEEP_NUMBER : ℕ := 0

/-- Modelled from the spec: bit position of Command Center: MULE. -/
def MULE_NUMBER : ℕ := 1

/-- Modelled from the spec: bit position of Command Center: Extra Supplies. -/
def EXTRA_SUPPLIES_NUMBER : ℕ := 2

/-- Modelled from the spec: bit position of Planetary Fortress: Orbital
Module. -/
def PLANETARY_ORBITAL_MODULE_NUMBER : ℕ := 3

/-- Python's `==` between a `NetworkItem` (a `NamedTuple`) and an `int`:
`tuple.__eq__(int)` and `int.__eq__(tuple)` both return `NotImplemented`,
so the comparison falls back to identity and is always `False`.  This is
the comparison `item_id in replacement_item_ids` performs elementwise in
`calculate_items` (`client.py` line 1278), since the loop variable ranges
over `NetworkItem` records while the list holds `int` codes. -/
def py_network_item_eq_int (_x : NetworkItem) (_item_id : ℤ) : Bool := false

/-- The guard of the Orbital Command compatibility shim (`client.py` lines
1270-1279): `sum(item_id in replacement_item_ids for item_id in items)`,
where `items` is the `NetworkItem` list and membership is Python `in`
(elementwise `==` against the `int` codes). -/
def replacement_items_found (items : List NetworkItem) (replacement_item_ids : List ℤ) : ℕ :=
  (items.map (fun it =>
    if replacement_item_ids.any (fun item_id => py_network_item_eq_int it item_id)
    then 1 else 0)).sum

/-- The fold of `calculate_items` restricted to the shared Terran slot of the
Orbital Command items (`client.py` lines 1212-1258): the four modern
replacements are `Flag`-kind (`quantity == 1`, `|= 1 << number`) and the
deprecated Progressive Orbital Command only increments
`orbital_command_count`.  Returns the slot value and the count. -/
def orbital_slot_loop (items : List NetworkItem) : ℕ × ℕ :=
  items.foldl (fun st it =>
    if it.item = SCANNER_SWEEP_CODE then (st.1 ||| (1 <<< SCANNER_SWEEP_NUMBER), st.2)
    else if it.item = MULE_CODE then (st.1 ||| (1 <<< MULE_NUMBER), st.2)
    else if it.item = EXTRA_SUPPLIES_CODE then (st.1 ||| (1 <<< EXTRA_SUPPLIES_NUMBER), st.2)
    else if it.item = PLANETARY_ORBITAL_MODULE_CODE then
      (st.1 ||| (1 <<< PLANETARY_ORBITAL_MODULE_NUMBER), st.2)
    else if it.item = ORBITAL_COMMAND_CODE then (st.1, st.2 + 1)
    else st) (0, 0)

/-- The deprecated Orbital Command handling block of `calculate_items`
(`client.py` lines 1269-1293), applied after the fold: when at least one
Progressive Orbital Command copy was counted, either skip and report a
warning (when the replacement check fires) or add the Scanner Sweep and
MULE bits, plus the Planetary Fortress Orbital Module bit for a second
copy.  Returns the slot value and whether the warning was emitted. -/
def orbital_command_shim (items : List NetworkItem) (orbital_command_count : ℕ)
    (slot : ℕ) : ℕ × Bool :=
  if orbital_command_count > 0 then
    if replacement_items_found items
        [SCANNER_SWEEP_CODE, MULE_CODE, EXTRA_SUPPLIES_CODE,
          PLANETARY_ORBITAL_MODULE_CODE] > 0 then
      (slot, true)
    else
      let slot := slot + (1 <<< SCANNER_SWEEP_NUMBER)
      let slot := slot + (1 <<< MULE_NUMBER)
      let slot := if orbital_command_count ≥ 2 then
          slot + (1 <<< PLANETARY_ORBITAL_MODULE_NUMBER)
        else slot
      (slot, false)
  else (slot, false)

/-- The Orbital-Command-relevant slice of `calculate_items`: the fold over
the event list followed by the deprecated-item shim. -/
def calculate_orbital_slot (items : List NetworkItem) : ℕ × Bool :=
  let st := orbital_slot_loop items
  orbital_command_shim items st.2 st.1

/-- C5: the claim matches the code's comments and warning text ("Both old
Orbital Command and its replacements are present in the world. Skipping
compatibility handling."), but the guard compares `NetworkItem` records to
`int` codes, which is always `False` in Python, so the skip/warning branch
is unreachable.  At the failing input — one Progressive Orbital Command and
one Command Center: MULE — the code emits no warning and applies the shim
anyway: the MULE flag bit (value 2) is first set by the real item and then
added again by the shim, carrying into the Extra Supplies bit: the slot
ends at 5, with the MULE bit clear and the Extra Supplies bit set, instead
of the claimed skip leaving the slot at 2. -/
theorem orbital_command_shim_never_skips :
    replacement_items_found [⟨ORBITAL_COMMAND_CODE, 0, 0, 0⟩, ⟨MULE_CODE, 0, 0, 0⟩]
      [SCANNER_SWEEP_CODE, MULE_CODE, EXTRA_SUPPLIES_CODE,
        PLANETARY_ORBITAL_MODULE_CODE] = 0
    ∧ calculate_orbital_slot [⟨ORBITAL_COMMAND_CODE, 0, 0, 0⟩, ⟨MULE_CODE, 0, 0, 0⟩]
      = (5, false)
    ∧ Nat.testBit 5 MULE_NUMBER = false
    ∧ Nat.testBit 5 EXTRA_SUPPLIES_NUMBER = true
    ∧ Nat.testBit 2 MULE_NUMBER = true := by
  refine ⟨?_, ?_, ?_, ?_, ?_⟩ <;> decide

/-- Modelled from the spec: the Protoss upgrade items that take part in the
ground/air bundle reduction (§4.3).  The underlying member items are
`Counter`-kind with distinct bit positions in the shared Protoss upgrade
slot; `upgrade_bundles` (from `item/item_groups.py`, not among the embedded
sources) maps each bundle to its member items, the ground and air bundles
both containing Progressive Protoss Shields. -/
inductive ProtossUpgradeItem where
  | groundWeapon
  | groundArmor
  | airWeapon
  | airArmor
  | shields
  | groundUpgrade
  | airUpgrade
deriving DecidableEq

/-- Modelled from the spec: bit positions (`ItemData.number`) of the counter
items inside the shared Protoss upgrade slot; concrete values are opaque,
only their distinctness and spacing matter, so representative ones are
fixed here.  The two bundle items carry a negative `number` in the source
and never contribute a bit of their own. -/
def upgrade_item_number : ProtossUpgradeItem → ℕ
  | .groundWeapon => 0
  | .groundArmor => 2
  | .airWeapon => 4
  | .airArmor => 6
  | .shields => 8
  | .groundUpgrade => 0
  | .airUpgrade => 0

/-- Modelled from the spec: the `upgrade_bundles` table restricted to the two
Protoss bundle items. -/
def upgrade_bundles : ProtossUpgradeItem → List ProtossUpgradeItem
  | .groundUpgrade => [.groundWeapon, .groundArmor, .shields]
  | .airUpgrade => [.airWeapon, .airArmor, .shields]
  | _ => []

/-- `get_bundle_upgrade_member_numbers` from `client.py` (lines 1313-1318):
the member bit positions of a bundle, with Progressive Protoss Shields
filtered out of the two Protoss ground/air bundles ("Shields are handled
as a maximum of those two"). -/
def get_bundle_upgrade_member_numbers (bundled_item : ProtossUpgradeItem) : List ℕ :=
  let upgrade_elements := upgrade_bundles bundled_item
  let upgrade_elements :=
    if bundled_item = .groundUpgrade ∨ bundled_item = .airUpgrade then
      upgrade_elements.filter (fun item_name => item_name ≠ .shields)
    else upgrade_elements
  upgrade_elements.map upgrade_item_number

/-- The fold of `calculate_items` restricted to the shared Protoss upgrade
slot (`client.py` lines 1221-1246): a plain multi-quantity item
(`number >= 0`) adds `1 << number` per copy; a bundle item (`number < 0`)
increments its `shields_from_ground_upgrade` / `shields_from_air_upgrade`
counter and adds `1 << n` for every non-shield member `n`.  Returns
`(slot, shields_from_ground_upgrade, shields_from_air_upgrade)`. -/
def protoss_step (st : ℕ × ℕ × ℕ) (it : ProtossUpgradeItem) : ℕ × ℕ × ℕ :=
  if it = .groundUpgrade ∨ it = .airUpgrade then
    let g := if it = .groundUpgrade then st.2.1 + 1 else st.2.1
    let a := if it = .airUpgrade then st.2.2 + 1 else st.2.2
    ((get_bundle_upgrade_member_numbers it).foldl
      (fun slot bundled_number => slot + (1 <<< bundled_number)) st.1, g, a)
  else (st.1 + (1 <<< upgrade_item_number it), st.2.1, st.2.2)

/-- The loop of `calculate_items` over the event list, restricted to the
Protoss upgrade slot: fold `protoss_step` from a zeroed state. -/
def protoss_upgrade_slot_loop (items : List ProtossUpgradeItem) : ℕ × ℕ × ℕ :=
  items.foldl protoss_step (0, 0, 0)

/-- The Protoss-shield-relevant slice of `calculate_items`: the fold over the
event list followed by the shields fix (`client.py` lines 1261-1267), which
adds `1 << shields.number` once per level of `max(shields_from_ground,
shields_from_air)`. -/
def calculate_protoss_upgrade_slot (items : List ProtossUpgradeItem) : ℕ :=
  let st := protoss_upgrade_slot_loop items
  if st.2.1 > 0 ∨ st.2.2 > 0 then
    (List.range (max st.2.1 st.2.2)).foldl
      (fun slot _ => slot + (1 <<< upgrade_item_number .shields)) st.1
  else st.1

/-- The slot contribution of a single folded event: the bundle items add the
sum over their non-shield member bits, every other item adds its own bit. -/
def protoss_contrib (it : ProtossUpgradeItem) : ℕ :=
  if it = .groundUpgrade ∨ it = .airUpgrade then
    ((get_bundle_upgrade_member_numbers it).map (fun n => 1 <<< n)).sum
  else 1 <<< upgrade_item_number it

theorem protoss_step_eq (st : ℕ × ℕ × ℕ) (it : ProtossUpgradeItem) :
    protoss_step st it
      = (st.1 + protoss_contrib it,
         st.2.1 + (if it = .groundUpgrade then 1 else 0),
         st.2.2 + (if it = .airUpgrade then 1 else 0)) := by
  cases it <;> simp [protoss_step, protoss_contrib, get_bundle_upgrade_member_numbers,
    upgrade_bundles, upgrade_item_number]

theorem protoss_foldl_eq (l : List ProtossUpgradeItem) (st : ℕ × ℕ × ℕ) :
    List.foldl protoss_step st l
      = (st.1 + (l.map protoss_contrib).sum,
         st.2.1 + l.count .groundUpgrade,
         st.2.2 + l.count .airUpgrade) := by
  induction l generalizing st with
  | nil => simp
  | cons x t ih =>
    rw [List.foldl_cons, ih, protoss_step_eq]
    simp only [List.map_cons, List.sum_cons, List.count_cons]
    refine Prod.ext ?_ (Prod.ext ?_ ?_)
    · simp [add_assoc]
    · simp only [List.count_cons, beq_iff_eq]
      split_ifs <;> omega
    · simp only [List.count_cons, beq_iff_eq]
      split_ifs <;> omega

theorem foldl_const_add_range (k c init : ℕ) :
    List.foldl (fun slot _ => slot + c) init (List.range k) = init + k * c := by
  induction k generalizing init with
  | zero => simp
  | succ n ih => rw [List.range_succ, List.foldl_append, ih]; simp; ring

/-- C6: when `g` copies of Progressive Protoss Ground Upgrade and `a` copies
of Progressive Protoss Air Upgrade are received, the shared Protoss upgrade
slot receives the non-shield members of each bundle once per copy, while
the shields bit receives exactly `max g a` increments — the same effect as
`max g a` copies of the plain Progressive Protoss Shields item; with tiers
2 and 3 the shields contribution equals that of tier 3 alone, not the sum
of both. -/
theorem protoss_shields_max_reduction (g a n : ℕ) :
    calculate_protoss_upgrade_slot
        (List.replicate g .groundUpgrade ++ List.replicate a .airUpgrade)
      = g * (2 ^ upgrade_item_number .groundWeapon + 2 ^ upgrade_item_number .groundArmor)
        + a * (2 ^ upgrade_item_number .airWeapon + 2 ^ upgrade_item_number .airArmor)
        + max g a * 2 ^ upgrade_item_number .shields
    ∧ calculate_protoss_upgrade_slot (List.replicate n .shields)
      = n * 2 ^ upgrade_item_number .shields
    ∧ calculate_protoss_upgrade_slot
        (List.replicate 2 .groundUpgrade ++ List.replicate 3 .airUpgrade)
      = 2 * (2 ^ upgrade_item_number .groundWeapon + 2 ^ upgrade_item_number .groundArmor)
        + 3 * (2 ^ upgrade_item_number .airWeapon + 2 ^ upgrade_item_number .airArmor)
        + calculate_protoss_upgrade_slot (List.replicate 3 .shields) := by
  have hmain : ∀ g a : ℕ,
      calculate_protoss_upgrade_slot
          (List.replicate g .groundUpgrade ++ List.replicate a .airUpgrade)
        = g * (2 ^ upgrade_item_number .groundWeapon + 2 ^ upgrade_item_number .groundArmor)
          + a * (2 ^ upgrade_item_number .airWeapon + 2 ^ upgrade_item_number .airArmor)
          + max g a * 2 ^ upgrade_item_number .shields := by
    intro g a
    simp only [calculate_protoss_upgrade_slot, protoss_upgrade_slot_loop, protoss_foldl_eq,
      List.map_append, List.map_replicate, List.sum_append, List.sum_replicate,
      List.count_append, List.count_replicate, foldl_const_add_range]
    simp [protoss_contrib, get_bundle_upgrade_member_numbers, upgrade_bundles,
      upgrade_item_number]
  have hshields : ∀ n : ℕ,
      calculate_protoss_upgrade_slot (List.replicate n .shields)
        = n * 2 ^ upgrade_item_number .shields := by
    intro n
    simp only [calculate_protoss_upgrade_slot, protoss_upgrade_slot_loop, protoss_foldl_eq,
      List.map_replicate, List.sum_replicate, List.count_replicate, foldl_const_add_range]
    simp [protoss_contrib, upgrade_item_number]
  refine ⟨hmain g a, hshields n, ?_⟩
  rw [hmain 2 3, hshields 3]
  norm_num

/-- Modelled from the spec: the entry-rule node kinds of §3 / §4.2.  The rule
classes (`SubRuleRuleData`, `CountMissionsRuleData`, item-count rules) live
in `mission_order/entry_rules.py`, which is not among the embedded sources;
following §9 the possibly-cyclic rule graph is an arena of nodes addressed
by integer rule id, a `subRule` holding references to its children by id. -/
inductive EntryRule where
  | countMissionsRule (missions : List ℤ) (amount : ℕ)
  | countItemsRule (items : List ℤ) (amount : ℕ)
  | subRule (children : List ℕ) (amount : ℕ)

/-- The number of rule ids of the arena not yet on the active recursion
path: the termination measure of the evaluator (§4.2's in-progress set can
only grow while staying inside the arena). -/
def fresh_rules (n : ℕ) (in_progress : List ℕ) : ℕ :=
  ((Finset.range n).filter (fun i => i ∉ in_progress)).card

theorem fresh_rules_cons_lt (n rule_id : ℕ) (in_progress : List ℕ)
    (hlt : rule_id < n) (hnot : rule_id ∉ in_progress) :
    fresh_rules n (rule_id :: in_progress) < fresh_rules n in_progress := by
  apply Finset.card_lt_card
  rw [Finset.ssubset_iff_of_subset]
  · exact ⟨rule_id, by simp [hlt, hnot], by simp⟩
  · intro x hx
    simp only [Finset.mem_filter, Finset.mem_range, List.mem_cons] at hx ⊢
    tauto

mutual

/-- Modelled from the spec: `is_accessible` (§4.2), whose implementation in
`mission_order/entry_rules.py` is not among the embedded sources.  A
mission-count rule compares the number of completed targets with `amount`;
an item-count rule compares the summed received counts; a sub-rule first
consults the in-progress path — a re-entered rule id evaluates to `false`
without recursing — and otherwise requires `amount` of its children to be
accessible with itself added to the path (the source short-circuits the
child count at the threshold, which cannot change the boolean outcome, so
the full count is taken here).  A dangling rule id is `false`; the source
rejects those at construction time (`InvalidRuleGraph`). -/
def is_accessible (rules : List EntryRule) (beaten : List ℤ) (received : ℤ → ℕ) :
    ℕ → List ℕ → Bool
  | rule_id, in_progress =>
    if hlt : rule_id < rules.length then
      match rules.get ⟨rule_id, hlt⟩ with
      | .countMissionsRule missions amount =>
        amount ≤ (missions.filter (fun m => m ∈ beaten)).length
      | .countItemsRule items amount =>
        amount ≤ (items.map received).sum
      | .subRule children amount =>
        if _hin : rule_id ∈ in_progress then false
        else amount ≤ satisfied_children rules beaten received children (rule_id :: in_progress)
    else false
  termination_by _rule_id in_progress => (fresh_rules rules.length in_progress, 0)
  decreasing_by
    apply Prod.Lex.left
    exact fresh_rules_cons_lt _ _ _ hlt _hin

/-- The number of accessible children of a sub-rule, evaluated on the
extended in-progress path. -/
def satisfied_children (rules : List EntryRule) (beaten : List ℤ) (received : ℤ → ℕ) :
    List ℕ → List ℕ → ℕ
  | [], _ => 0
  | child :: rest, in_progress =>
    (if is_accessible rules beaten received child in_progress then 1 else 0)
    + satisfied_children rules beaten received rest in_progress
  termination_by cs _in_progress => (fresh_rules rules.length _in_progress, cs.length + 1)
  decreasing_by
    all_goals apply Prod.Lex.right
    all_goals simp only [List.length_cons]
    all_goals omega

end

/-- `MissionSlotData` as used by `calc_available_nodes`: a mission id (−1
marks an empty grid slot) and its entry rule, the rule given by its arena
id per §9. -/
structure MissionSlotData where
  mission_id : ℤ
  entry_rule : ℕ

/-- `LayoutSlotData`: an entry rule and columns of mission slots. -/
structure LayoutSlotData where
  entry_rule : ℕ
  missions : List (List MissionSlotData)

/-- `CampaignSlotData`: an entry rule and ordered layouts. -/
structure CampaignSlotData where
  entry_rule : ℕ
  layouts : List LayoutSlotData

/-- `calc_available_nodes` from `client.py` (lines 1715-1741): one snapshot
of beaten missions and received item counts is taken, then every campaign,
the layouts of accessible campaigns, and the mission slots of accessible
layouts are evaluated, each entry rule with an empty in-progress list;
`available_layouts` receives an entry for every campaign index before the
campaign's own rule is consulted; empty mission slots (`mission_id == -1`)
are skipped.  (The source also threads a memoization set `accessible_rules`
through the evaluator, which lives outside the embedded sources; the pure
evaluator needs none.) -/
def calc_available_nodes (rules : List EntryRule) (hierarchy : List CampaignSlotData)
    (beaten : List ℤ) (received : ℤ → ℕ) :
    List ℤ × List (ℕ × List ℕ) × List ℕ :=
  let rule_ok := fun rule_id => is_accessible rules beaten received rule_id []
  let available_missions :=
    (hierarchy.enum.map (fun ci_campaign =>
      if rule_ok ci_campaign.2.entry_rule then
        (ci_campaign.2.layouts.map (fun layout =>
          if rule_ok layout.entry_rule then
            (layout.missions.flatten.filter
              (fun mission => mission.mission_id != -1 && rule_ok mission.entry_rule)).map
              MissionSlotData.mission_id
          else [])).flatten
      else [])).flatten
  let available_layouts :=
    hierarchy.enum.map (fun ci_campaign =>
      (ci_campaign.1,
        if rule_ok ci_campaign.2.entry_rule then
          (ci_campaign.2.layouts.enum.filter
            (fun li_layout => rule_ok li_layout.2.entry_rule)).map Prod.fst
        else []))
  let available_campaigns :=
    (hierarchy.enum.filter (fun ci_campaign => rule_ok ci_campaign.2.entry_rule)).map Prod.fst
  (available_missions, available_layouts, available_campaigns)

/-- The two-rule cyclic arena of the claim's scenario: rule A (id 0) whose
only child is the sub-rule B (id 1) whose only child is A. -/
def cycle_rules : List EntryRule := [.subRule [1] 1, .subRule [0] 1]

/-- A hierarchy whose single campaign is gated by the cyclic rule A. -/
def cycle_hierarchy : List CampaignSlotData := [⟨0, []⟩]

/-- C2: evaluating accessibility over a rule graph containing a rule
reachable from itself always terminates — the evaluator is a total Lean
function, its termination certified by the shrinking set of rule ids off
the active path — and returns a deterministic boolean: (1) in any arena, a
sub-rule re-entered while already on the active recursion path evaluates to
`false` through the cyclic edge alone; (2) for the scenario arena (rule A
whose only child is sub-rule B whose only child is A) both rules evaluate
to `false` from an empty path, whatever the beaten/received state; (3)
`calc_available_nodes`, which starts every top-level entry-rule evaluation
with an empty in-progress list, terminates on a hierarchy gated by the
cyclic rule and reports the campaign inaccessible. -/
theorem is_accessible_cycle_safe :
    (∀ (rules : List EntryRule) (beaten : List ℤ) (received : ℤ → ℕ)
      (rule_id : ℕ) (in_progress : List ℕ) (children : List ℕ) (amount : ℕ)
      (hlt : rule_id < rules.length),
      rules.get ⟨rule_id, hlt⟩ = .subRule children amount →
      rule_id ∈ in_progress →
      is_accessible rules beaten received rule_id in_progress = false)
    ∧ (∀ (beaten : List ℤ) (received : ℤ → ℕ),
      is_accessible cycle_rules beaten received 0 [] = false
      ∧ is_accessible cycle_rules beaten received 1 [] = false)
    ∧ (∀ (beaten : List ℤ) (received : ℤ → ℕ),
      calc_available_nodes cycle_rules cycle_hierarchy beaten received
        = ([], [(0, [])], [])) := by
  refine ⟨?_, ?_, ?_⟩
  · intro rules beaten received rule_id in_progress children amount hlt hrule hin
    simp only [List.get_eq_getElem] at hrule
    rw [is_accessible]
    simp [hlt, hrule, hin]
  · intro beaten received
    constructor <;> simp [is_accessible, satisfied_children, cycle_rules]
  · intro beaten received
    simp [calc_available_nodes, cycle_hierarchy, is_accessible, satisfied_children, cycle_rules]

/-- Witness for C2: the re-entry rule of the scenario arena evaluated at a
concrete state, the cyclic evaluations, and the node walk. -/
theorem is_accessible_cycle_safe_witness :
    is_accessible cycle_rules [] (fun _ => 0) 0 [0] = false
    ∧ is_accessible cycle_rules [] (fun _ => 0) 0 [] = false
    ∧ calc_available_nodes cycle_rules cycle_hierarchy [] (fun _ => 0)
      = ([], [(0, [])], []) := by
  have h := is_accessible_cycle_safe
  exact ⟨h.1 cycle_rules [] (fun _ => 0) 0 [0] [1] 1 (by norm_num [cycle_rules])
      (by simp [cycle_rules]) (by simp),
    (h.2.1 [] (fun _ => 0)).1, h.2.2 [] (fun _ => 0)⟩

/-- C7: `calc_available_nodes` evaluates every level against the single
snapshot of beaten missions and received counts it was given; a mission id
appears among the available missions only if some slot holding it lies in a
column of a layout of a campaign such that the campaign's, the layout's and
the slot's own entry rules are all accessible for that same snapshot (and
the slot is not an empty `-1` slot): layouts of an inaccessible campaign
and slots of an inaccessible layout are never reached. -/
theorem calc_available_nodes_structural_and
    (rules : List EntryRule) (hierarchy : List CampaignSlotData)
    (beaten : List ℤ) (received : ℤ → ℕ) (m : ℤ)
    (hm : m ∈ (calc_available_nodes rules hierarchy beaten received).1) :
    ∃ (campaign_idx : ℕ) (campaign : CampaignSlotData) (layout : LayoutSlotData)
      (column : List MissionSlotData) (mission : MissionSlotData),
      hierarchy[campaign_idx]? = some campaign
      ∧ layout ∈ campaign.layouts
      ∧ column ∈ layout.missions ∧ mission ∈ column
      ∧ mission.mission_id = m ∧ m ≠ -1
      ∧ is_accessible rules beaten received campaign.entry_rule [] = true
      ∧ is_accessible rules beaten received layout.entry_rule [] = true
      ∧ is_accessible rules beaten received mission.entry_rule [] = true := by
  simp only [calc_available_nodes, List.mem_flatten, List.mem_map] at hm
  obtain ⟨l, ⟨p, hp_enum, rfl⟩, hml⟩ := hm
  split at hml
  case isFalse => simp at hml
  case isTrue hcamp =>
    simp only [List.mem_flatten, List.mem_map] at hml
    obtain ⟨l2, ⟨layout, hlay, rfl⟩, hml2⟩ := hml
    split at hml2
    case isFalse => simp at hml2
    case isTrue hlayout =>
      simp only [List.mem_map, List.mem_filter, List.mem_flatten] at hml2
      obtain ⟨mission, ⟨⟨column, hcol, hmis⟩, hcond⟩, rfl⟩ := hml2
      rw [Bool.and_eq_true, bne_iff_ne] at hcond
      exact ⟨p.1, p.2, layout, column, mission,
        List.mem_enum_iff_getElem?.mp hp_enum, hlay, hcol, hmis, rfl,
        hcond.1, hcamp, hlayout, hcond.2⟩

/-- A minimal always-accessible arena and one-campaign hierarchy holding the
single mission 10, used to witness the structural theorems on concrete
input. -/
def demo_rules : List EntryRule := [.countMissionsRule [] 0]

/-- The one-campaign, one-layout, one-mission hierarchy of the demo. -/
def demo_hierarchy : List CampaignSlotData := [⟨0, [⟨0, [[⟨10, 0⟩]]⟩]⟩]

/-- Witness for C7 on the demo hierarchy: mission 10 is available, and the
theorem yields its accessible owner chain. -/
theorem calc_available_nodes_structural_and_witness :
    ∃ (campaign_idx : ℕ) (campaign : CampaignSlotData) (layout : LayoutSlotData)
      (column : List MissionSlotData) (mission : MissionSlotData),
      demo_hierarchy[campaign_idx]? = some campaign
      ∧ layout ∈ campaign.layouts
      ∧ column ∈ layout.missions ∧ mission ∈ column
      ∧ mission.mission_id = 10 ∧ (10 : ℤ) ≠ -1
      ∧ is_accessible demo_rules [] (fun _ => 0) campaign.entry_rule [] = true
      ∧ is_accessible demo_rules [] (fun _ => 0) layout.entry_rule [] = true
      ∧ is_accessible demo_rules [] (fun _ => 0) mission.entry_rule [] = true :=
  calc_available_nodes_structural_and demo_rules demo_hierarchy [] (fun _ => 0) 10
    (by simp [calc_available_nodes, demo_hierarchy, demo_rules, is_accessible])

/-- C10: the `available_layouts` map returned by `calc_available_nodes` has
an entry for every campaign index of the hierarchy — inaccessible campaigns
included, mapped to an empty list — so the GUI's indexing
`available_layouts[campaign_id]` never fails for a valid index; and a
layout index is listed under a campaign only if that campaign is itself in
`available_campaigns`. -/
theorem calc_available_nodes_layouts_cover
    (rules : List EntryRule) (hierarchy : List CampaignSlotData)
    (beaten : List ℤ) (received : ℤ → ℕ) :
    (∀ campaign_idx, campaign_idx < hierarchy.length →
      ∃ layout_idxs, (campaign_idx, layout_idxs)
        ∈ (calc_available_nodes rules hierarchy beaten received).2.1)
    ∧ (∀ campaign_idx layout_idxs layout_idx,
      (campaign_idx, layout_idxs) ∈ (calc_available_nodes rules hierarchy beaten received).2.1 →
      layout_idx ∈ layout_idxs →
      campaign_idx ∈ (calc_available_nodes rules hierarchy beaten received).2.2) := by
  constructor
  · intro ci hci
    refine ⟨_, List.mem_map.mpr ⟨(ci, hierarchy[ci]), ?_, rfl⟩⟩
    exact List.mem_enum_iff_getElem?.mpr (List.getElem?_eq_getElem hci)
  · intro ci ls li hmem hli
    simp only [calc_available_nodes, List.mem_map] at hmem ⊢
    obtain ⟨p, hp_enum, heq⟩ := hmem
    rw [Prod.mk.injEq] at heq
    obtain ⟨rfl, rfl⟩ := heq
    split at hli
    case isFalse => simp at hli
    case isTrue hcamp =>
      exact ⟨p, List.mem_filter.mpr ⟨hp_enum, hcamp⟩, rfl⟩

/-- Witness for C10 on the demo hierarchy: campaign index 0 has a layouts
entry, and since layout 0 is listed under it, campaign 0 is available. -/
theorem calc_available_nodes_layouts_cover_witness :
    (∃ layout_idxs, (0, layout_idxs)
      ∈ (calc_available_nodes demo_rules demo_hierarchy [] (fun _ => 0)).2.1)
    ∧ 0 ∈ (calc_available_nodes demo_rules demo_hierarchy [] (fun _ => 0)).2.2 := by
  have h := calc_available_nodes_layouts_cover demo_rules demo_hierarchy [] (fun _ => 0)
  refine ⟨h.1 0 (by simp [demo_hierarchy]), h.2 0 [0] 0 ?_ (by simp)⟩
  simp [calc_available_nodes, demo_hierarchy, demo_rules, is_accessible]

/-- `locations_for_mission_id` from `client.py` (lines 947-950): the
objective indices recorded for the mission (the
`ctx.mission_id_to_location_ids` mapping, kept as the parameter `locmap`)
encoded through `get_location_id`. -/
def locations_for_mission_id (wol hots allIn : ℤ) (locmap : ℤ → List ℤ)
    (mission_id : ℤ) : List ℤ :=
  (locmap mission_id).map (fun objective => get_location_id wol hots allIn mission_id objective)

/-- The unfinished-missions component of `calc_unfinished_nodes`
(`client.py` lines 1694-1708): among the available missions, those with a
non-empty objective set of which strictly fewer members are checked than
exist (`objectives_completed = ctx.checked_locations & objectives`).
Python's `set()` is modelled by `List.toFinset`. -/
def calc_unfinished_missions (wol hots allIn : ℤ) (rules : List EntryRule)
    (hierarchy : List CampaignSlotData) (beaten : List ℤ) (received : ℤ → ℕ)
    (locmap : ℤ → List ℤ) (checked_locations : Finset ℤ) : List ℤ :=
  (calc_available_nodes rules hierarchy beaten received).1.filter (fun mission_id =>
    let objectives := (locations_for_mission_id wol hots allIn locmap mission_id).toFinset
    decide objectives.Nonempty
      && decide ((checked_locations ∩ objectives).card < objectives.card))

theorem inter_card_lt_iff_exists_not_mem (s t : Finset ℤ) :
    (t.Nonempty ∧ (s ∩ t).card < t.card) ↔ ∃ x ∈ t, x ∉ s := by
  constructor
  · rintro ⟨-, hcard⟩
    by_contra hall
    push_neg at hall
    have : s ∩ t = t := Finset.inter_eq_right.mpr (fun x hx => hall x hx)
    rw [this] at hcard
    exact lt_irrefl _ hcard
  · rintro ⟨x, hxt, hxs⟩
    refine ⟨⟨x, hxt⟩, Finset.card_lt_card ?_⟩
    rw [Finset.ssubset_iff_of_subset Finset.inter_subset_right]
    exact ⟨x, hxt, fun hx => hxs (Finset.mem_inter.mp hx).1⟩

/-- C9: a mission id is among the unfinished missions of
`calc_unfinished_nodes` exactly when it is among the available missions for
the same state snapshot and at least one of its objective locations is not
in the checked-locations set. -/
theorem calc_unfinished_missions_iff (wol hots allIn : ℤ) (rules : List EntryRule)
    (hierarchy : List CampaignSlotData) (beaten : List ℤ) (received : ℤ → ℕ)
    (locmap : ℤ → List ℤ) (checked_locations : Finset ℤ) (m : ℤ) :
    m ∈ calc_unfinished_missions wol hots allIn rules hierarchy beaten received
        locmap checked_locations
      ↔ m ∈ (calc_available_nodes rules hierarchy beaten received).1
        ∧ ∃ loc ∈ locations_for_mission_id wol hots allIn locmap m,
            loc ∉ checked_locations := by
  rw [calc_unfinished_missions, List.mem_filter]
  simp only [Bool.and_eq_true, decide_eq_true_eq]
  rw [and_congr_right_iff]
  intro _
  rw [inter_card_lt_iff_exists_not_mem]
  simp [List.mem_toFinset]
